import Mathlib

attribute [local semireducible] Rat.add Rat.mul Rat.sub Rat.inv

/-!
Shallow embedding of the market-clearing engine of
src/agents/market_supervisor/market_supervisor_agent.py.

Python reals are modelled as rationals, timestamps as integers (seconds),
object identity as indices into an append-only store (the heap), and the
order-book dict as an association list with replace-on-insert semantics.
Logging, AWS storage and message transport are side effects outside the
engine and are omitted; the notifications the engine decides to emit are
returned as explicit event lists.
-/

namespace EnergyMarket

/-- Order status, source string constants: active, partially_filled
(constructor partFilled below), filled, expired, cancelled. -/
inductive OrderStatus where
  | active
  | partFilled
  | filled
  | expired
  | cancelled
deriving DecidableEq

/-- Order side, source string constants bid / offer (MarketOrder.order_type). -/
inductive Side where
  | bid
  | offer
deriving DecidableEq

/-- MarketOrder, from class MarketOrder.__init__. -/
structure MarketOrder where
  order_id : String
  order_type : Side
  agent_id : String
  quantity_mw : ℚ
  price_per_mwh : ℚ
  timestamp : ℤ
  priority : ℤ
  valid_until : ℤ
  filled_quantity : ℚ
  status : OrderStatus
deriving DecidableEq

instance : Inhabited MarketOrder :=
  ⟨{ order_id := "", order_type := Side.bid, agent_id := "", quantity_mw := 0,
     price_per_mwh := 0, timestamp := 0, priority := 0, valid_until := 0,
     filled_quantity := 0, status := OrderStatus.active }⟩

/-- MarketOrder.is_valid: `datetime.now() <= self.valid_until and self.status == 'active'`.
The current clock value is passed explicitly as `now`. -/
def MarketOrder.is_valid (o : MarketOrder) (now : ℤ) : Bool :=
  decide (now ≤ o.valid_until) && decide (o.status = OrderStatus.active)

/-- MarketOrder.fill: adds the quantity and recomputes status
(if-elif chain: filled when filled_quantity >= quantity_mw, else
partially_filled when filled_quantity > 0, else unchanged). -/
def MarketOrder.fill (o : MarketOrder) (quantity : ℚ) : MarketOrder :=
  let f := o.filled_quantity + quantity
  { o with
    filled_quantity := f
    status :=
      if o.quantity_mw ≤ f then OrderStatus.filled
      else if 0 < f then OrderStatus.partFilled
      else o.status }

/-- Trade record produced by _execute_trade (the deterministic fields;
trade_id / wall-clock timestamp / session_id are uuid- and clock-generated
strings carried along unchanged and are omitted). -/
structure Trade where
  bid_id : String
  offer_id : String
  buyer_id : String
  seller_id : String
  quantity_mw : ℚ
  price_per_mwh : ℚ
  total_value : ℚ
  market_fee : ℚ
deriving DecidableEq

/-- The configuration fields of MarketSupervisorConfig that the matching
engine reads. -/
structure MarketConfig where
  price_discovery_method : String
  min_trade_size_mw : ℚ
  market_fee_percentage : ℚ
  emergency_stop_threshold : ℚ
deriving DecidableEq

/-- Defaults from MarketSupervisorConfig: uniform_pricing, 1.0 MW,
0.1 percent fee, 0.8 emergency threshold. -/
def defaultConfig : MarketConfig :=
  { price_discovery_method := "uniform_pricing"
    min_trade_size_mw := 1
    market_fee_percentage := 1/1000
    emergency_stop_threshold := 4/5 }

/-- The supervisor state the engine reads and writes.  Python order objects
are heap-allocated and shared by reference between self.order_book,
self.bids and self.offers; the heap list models the object store (an order
object is the heap entry at its index, indices are never reused), and the
three collections hold references (indices) into it. -/
structure EngineState where
  heap : List MarketOrder
  order_book : List (String × Nat)
  bids : List Nat
  offers : List Nat
  market_clearing_price : ℚ
  market_volatility : ℚ
  total_volume_traded : ℚ
  total_trades_executed : Nat
  is_trading_active : Bool
  supply_demand_ratio : ℚ
  price_spread : ℚ
deriving DecidableEq

/-- The field values set in MarketSupervisorAgent.__init__. -/
def initialState : EngineState :=
  { heap := [], order_book := [], bids := [], offers := []
    market_clearing_price := 50
    market_volatility := 0
    total_volume_traded := 0
    total_trades_executed := 0
    is_trading_active := true
    supply_demand_ratio := 1
    price_spread := 0 }

/-- Dereference an order object; collection entries always point into the
heap, so the default is never reached from reachable states. -/
def getOrderD (st : EngineState) (r : Nat) : MarketOrder :=
  (st.heap.get? r).getD default

/-- Python dict assignment d[k] = v: replace the value at an existing key in
place, else append (insertion order preserved). -/
def dictInsert (k : String) (v : Nat) : List (String × Nat) → List (String × Nat)
  | [] => [(k, v)]
  | kv :: rest => if kv.1 = k then (k, v) :: rest else kv :: dictInsert k v rest

/-- Python dict lookup d.get(k). -/
def dictGet (k : String) : List (String × Nat) → Option Nat
  | [] => none
  | kv :: rest => if kv.1 = k then some kv.2 else dictGet k rest

/-- Python dict d.pop(k, None): drop the entry at the key, no-op when absent. -/
def dictErase (k : String) : List (String × Nat) → List (String × Nat)
  | [] => []
  | kv :: rest => if kv.1 = k then rest else kv :: dictErase k rest

/-- Lexicographic comparison of the 3-component sort keys produced by the
source lambdas, for example (-x.priority, -x.price_per_mwh, x.timestamp):
Python tuple comparison, non-strict in the last component. -/
def lex3 {α : Type} (f : α → ℤ) (g : α → ℚ) (h : α → ℤ) (a b : α) : Prop :=
  f a < f b ∨ (f a = f b ∧ (g a < g b ∨ (g a = g b ∧ h a ≤ h b)))

instance lex3Dec {α : Type} (f : α → ℤ) (g : α → ℚ) (h : α → ℤ) :
    DecidableRel (lex3 f g h) := fun a b => by
  unfold lex3; exact inferInstance

/-- The bid sort relation on order references, from the source key
lambda x: (-x.priority, -x.price_per_mwh, x.timestamp):
priority descending, then limit price descending, then time ascending. -/
def bidOrdering (st : EngineState) : Nat → Nat → Prop :=
  lex3 (fun r => -(getOrderD st r).priority)
       (fun r => -(getOrderD st r).price_per_mwh)
       (fun r => (getOrderD st r).timestamp)

/-- The offer sort relation, from the source key
lambda x: (-x.priority, x.price_per_mwh, x.timestamp):
priority descending, then limit price ascending, then time ascending. -/
def offerOrdering (st : EngineState) : Nat → Nat → Prop :=
  lex3 (fun r => -(getOrderD st r).priority)
       (fun r => (getOrderD st r).price_per_mwh)
       (fun r => (getOrderD st r).timestamp)

instance bidOrderingDec (st : EngineState) : DecidableRel (bidOrdering st) :=
  fun a b => lex3Dec _ _ _ a b

instance offerOrderingDec (st : EngineState) : DecidableRel (offerOrdering st) :=
  fun a b => lex3Dec _ _ _ a b

/-- sorted_bids = sorted(self.bids, key=...): Python sorted() is a stable
sort over a total preorder; modelled by stable insertion sort. -/
def sorted_bids (st : EngineState) : List Nat :=
  List.insertionSort (bidOrdering st) st.bids

/-- sorted_offers = sorted(self.offers, key=...). -/
def sorted_offers (st : EngineState) : List Nat :=
  List.insertionSort (offerOrdering st) st.offers

/-- The pure part of _execute_trade: trade price by pricing mode (midpoint
for uniform_pricing, bid limit for pay_as_bid), fee = quantity * price *
fee rate, and the trade record fields. -/
def executeTrade (cfg : MarketConfig) (bid offer : MarketOrder) (quantity : ℚ) : Trade :=
  let trade_price :=
    if cfg.price_discovery_method = "uniform_pricing" then
      (bid.price_per_mwh + offer.price_per_mwh) / 2
    else bid.price_per_mwh
  { bid_id := bid.order_id
    offer_id := offer.order_id
    buyer_id := bid.agent_id
    seller_id := offer.agent_id
    quantity_mw := quantity
    price_per_mwh := trade_price
    total_value := quantity * trade_price
    market_fee := quantity * trade_price * cfg.market_fee_percentage }

/-- The state mutation of one successful pairing in _clear_market: both
order objects are filled in place through their references (the volume and
count metric updates happen inside _execute_trade), and orders that became
filled are removed from self.bids / self.offers. -/
def applyFill (st : EngineState) (bidRef oref : Nat) (bid offer : MarketOrder)
    (q : ℚ) : EngineState :=
  { st with
    heap := (st.heap.set bidRef (bid.fill q)).set oref (offer.fill q)
    total_volume_traded := st.total_volume_traded + q
    total_trades_executed := st.total_trades_executed + 1
    bids := if (bid.fill q).status = OrderStatus.filled
            then st.bids.erase bidRef else st.bids
    offers := if (offer.fill q).status = OrderStatus.filled
              then st.offers.erase oref else st.offers }

/-- The inner loop of _clear_market (for offer in sorted_offers), for a
fixed current bid reference.  Skips offers that fail is_valid, matches when
bid price >= offer price, trades min of the two remaining quantities when
that is at least the minimum trade size, fills both orders (writing the
shared objects through their references; the two references are drawn from
the disjoint bid/offer side lists), and stops when the bid is filled. -/
def matchOffers (cfg : MarketConfig) (now : ℤ) (bidRef : Nat) :
    List Nat → EngineState → EngineState × List Trade
  | [], st => (st, [])
  | oref :: rest, st =>
    match st.heap.get? bidRef, st.heap.get? oref with
    | some bid, some offer =>
      if offer.is_valid now then
        if offer.price_per_mwh ≤ bid.price_per_mwh then
          let q := min (bid.quantity_mw - bid.filled_quantity)
                       (offer.quantity_mw - offer.filled_quantity)
          if cfg.min_trade_size_mw ≤ q then
            let trade := executeTrade cfg bid offer q
            if (bid.fill q).status = OrderStatus.filled then
              (applyFill st bidRef oref bid offer q, [trade])
            else
              let res := matchOffers cfg now bidRef rest (applyFill st bidRef oref bid offer q)
              (res.1, trade :: res.2)
          else matchOffers cfg now bidRef rest st
        else matchOffers cfg now bidRef rest st
      else matchOffers cfg now bidRef rest st
    | _, _ => matchOffers cfg now bidRef rest st

/-- The outer loop of _clear_market (for bid in sorted_bids): a bid failing
is_valid is skipped; otherwise the inner loop runs against the offer
snapshot taken at the start of the round. -/
def matchBids (cfg : MarketConfig) (now : ℤ) (sortedOffers : List Nat) :
    List Nat → EngineState → EngineState × List Trade
  | [], st => (st, [])
  | bref :: rest, st =>
    match st.heap.get? bref with
    | some bid =>
      if bid.is_valid now then
        let res1 := matchOffers cfg now bref sortedOffers st
        let res2 := matchBids cfg now sortedOffers rest res1.1
        (res2.1, res1.2 ++ res2.2)
      else matchBids cfg now sortedOffers rest st
    | none => matchBids cfg now sortedOffers rest st

/-- Round trade totals used by _update_market_clearing_price. -/
def totalVolume (trades : List Trade) : ℚ :=
  (trades.map (fun t => t.quantity_mw)).sum

/-- Volume-weighted price numerator of _update_market_clearing_price. -/
def weightedPrice (trades : List Trade) : ℚ :=
  (trades.map (fun t => t.quantity_mw * t.price_per_mwh)).sum

/-- _update_market_clearing_price: early return on an empty trade list,
volume-weighted average price, EMA volatility update guarded by
market_clearing_price > 0, then the price assignment. -/
def update_market_clearing_price (st : EngineState) (trades : List Trade) : EngineState :=
  if trades = [] then st
  else
    let new_clearing_price := weightedPrice trades / totalVolume trades
    let st1 :=
      if 0 < st.market_clearing_price then
        { st with market_volatility :=
            st.market_volatility * (9/10) +
            (|new_clearing_price - st.market_clearing_price| / st.market_clearing_price) * (1/10) }
      else st
    { st1 with market_clearing_price := new_clearing_price }

/-- _clear_market: no-op when either side is empty, otherwise sort both
sides, run the matching loops, and update the clearing price when the
round executed at least one trade. -/
def clear_market (cfg : MarketConfig) (now : ℤ) (st : EngineState) :
    EngineState × List Trade :=
  if st.bids = [] ∨ st.offers = [] then (st, [])
  else
    let res := matchBids cfg now (sorted_offers st) (sorted_bids st) st
    if res.2 = [] then res
    else (update_market_clearing_price res.1 res.2, res.2)

/-- One iteration of _market_clearing_loop: _clear_market runs only when
is_trading_active. -/
def clearing_tick (cfg : MarketConfig) (now : ℤ) (st : EngineState) :
    EngineState × List Trade :=
  if st.is_trading_active then clear_market cfg now st else (st, [])

/-- Emergency broadcast reason codes of _broadcast_emergency_signal. -/
inductive EmergencySignal where
  | supply_demand_imbalance
  | high_volatility
deriving DecidableEq

/-- _check_emergency_conditions: when supply_demand_ratio is below the
emergency threshold and trading is active, clear is_trading_active and
broadcast supply_demand_imbalance; independently, when market_volatility
exceeds 0.5, broadcast high_volatility (no state change).  The third check
(order book imbalance) only logs and is omitted. -/
def check_emergency_conditions (cfg : MarketConfig) (st : EngineState) :
    EngineState × List EmergencySignal :=
  let res1 :=
    if st.supply_demand_ratio < cfg.emergency_stop_threshold then
      if st.is_trading_active then
        ({ st with is_trading_active := false },
         [EmergencySignal.supply_demand_imbalance])
      else (st, ([] : List EmergencySignal))
    else (st, [])
  let sig2 :=
    if (1:ℚ)/2 < st.market_volatility then [EmergencySignal.high_volatility] else []
  (res1.1, res1.2 ++ sig2)

/-- Expiry notifications sent by _cleanup_expired_orders. -/
inductive OBEvent where
  | bid_expired (bid_id agent_id : String)
  | offer_expired (offer_id agent_id : String)
deriving DecidableEq

/-- _cleanup_expired_orders: collect every order-book entry whose order
fails is_valid, send one expiry notification per entry, then pop each from
the dict and drop its object from self.bids / self.offers. -/
def cleanup_expired_orders (now : ℤ) (st : EngineState) :
    EngineState × List OBEvent :=
  let expired := st.order_book.filter (fun kv => !(getOrderD st kv.2).is_valid now)
  let events := expired.map (fun kv =>
    let o := getOrderD st kv.2
    if o.order_type = Side.bid then OBEvent.bid_expired o.order_id o.agent_id
    else OBEvent.offer_expired o.order_id o.agent_id)
  let st2 := expired.foldl (fun acc kv =>
    { acc with
      order_book := dictErase kv.1 acc.order_book
      bids := acc.bids.erase kv.2
      offers := acc.offers.erase kv.2 }) st
  (st2, events)

/-- The payload fields read by _handle_energy_bid / _handle_energy_offer
(bid_id / offer_id as order_id, consumer_id / producer_id as agent_id;
priority defaulting to 5 happens at the payload access, so the resolved
value is a plain field here; valid_until is always present in the payload,
so the 30-minute constructor default is not taken on this path). -/
structure OrderPayload where
  order_id : String
  agent_id : String
  quantity_mw : ℚ
  price_per_mwh : ℚ
  timestamp : ℤ
  priority : ℤ
  valid_until : ℤ

/-- The MarketOrder built by the submission handlers (filled_quantity 0,
status active, from MarketOrder.__init__). -/
def payloadOrder (p : OrderPayload) (side : Side) : MarketOrder :=
  { order_id := p.order_id
    order_type := side
    agent_id := p.agent_id
    quantity_mw := p.quantity_mw
    price_per_mwh := p.price_per_mwh
    timestamp := p.timestamp
    priority := p.priority
    valid_until := p.valid_until
    filled_quantity := 0
    status := OrderStatus.active }

/-- _handle_energy_bid: allocate the order object, assign it in the
order_book dict (replacing any entry at the same id), append it to
self.bids, then re-sort self.bids with the bid key. -/
def handle_energy_bid (p : OrderPayload) (st : EngineState) : EngineState :=
  let order := payloadOrder p Side.bid
  let r := st.heap.length
  let st1 := { st with
    heap := st.heap ++ [order]
    order_book := dictInsert p.order_id r st.order_book
    bids := st.bids ++ [r] }
  { st1 with bids := List.insertionSort (bidOrdering st1) st1.bids }

/-- _handle_energy_offer: as handle_energy_bid, on the offer side with the
offer key. -/
def handle_energy_offer (p : OrderPayload) (st : EngineState) : EngineState :=
  let order := payloadOrder p Side.offer
  let r := st.heap.length
  let st1 := { st with
    heap := st.heap ++ [order]
    order_book := dictInsert p.order_id r st.order_book
    offers := st.offers ++ [r] }
  { st1 with offers := List.insertionSort (offerOrdering st1) st1.offers }

/-- The fill-tracking invariant of the data model: every stored order has
0 <= filled_quantity <= quantity_mw. -/
def heapWF (h : List MarketOrder) : Prop :=
  ∀ o ∈ h, 0 ≤ o.filled_quantity ∧ o.filled_quantity ≤ o.quantity_mw

instance heapWFDec (h : List MarketOrder) : Decidable (heapWF h) := by
  unfold heapWF
  exact List.decidableBAll _ _

/-- The filled quantity of the order object stored at a reference (0 when
the reference is out of range). -/
def filledAt (h : List MarketOrder) (r : Nat) : ℚ :=
  ((h.get? r).map (fun o => o.filled_quantity)).getD 0

/-! Concrete inputs used by the scenario theorems and witnesses. -/

/-- The bid of the spec scenario: quantity 10 MW at 50 per MWh, created at
time 0, default priority 5, valid for 30 minutes. -/
def bidPayload1 : OrderPayload :=
  { order_id := "b1", agent_id := "c1", quantity_mw := 10, price_per_mwh := 50,
    timestamp := 0, priority := 5, valid_until := 1800 }

/-- The offer of the spec scenario: quantity 10 MW at 40 per MWh. -/
def offerPayload1 : OrderPayload :=
  { order_id := "o1", agent_id := "p1", quantity_mw := 10, price_per_mwh := 40,
    timestamp := 0, priority := 5, valid_until := 1800 }

/-- The book holding exactly the scenario bid and offer. -/
def scenarioState : EngineState :=
  handle_energy_offer offerPayload1 (handle_energy_bid bidPayload1 initialState)

/-- A half-filled bid: 4 of 10 MW filled, expiry (1800) not yet passed at
time 0, status partially_filled as MarketOrder.fill sets it. -/
def partialBid : MarketOrder :=
  { order_id := "b1", order_type := Side.bid, agent_id := "c1", quantity_mw := 10,
    price_per_mwh := 50, timestamp := 0, priority := 5, valid_until := 1800,
    filled_quantity := 4, status := OrderStatus.partFilled }

/-- A live offer compatible with partialBid (40 <= 50). -/
def freshOffer : MarketOrder :=
  { order_id := "o1", order_type := Side.offer, agent_id := "p1", quantity_mw := 10,
    price_per_mwh := 40, timestamp := 0, priority := 5, valid_until := 1800,
    filled_quantity := 0, status := OrderStatus.active }

/-- A book holding the half-filled bid and the live offer. -/
def statePartial : EngineState :=
  { initialState with
    heap := [partialBid, freshOffer]
    order_book := [("b1", 0), ("o1", 1)]
    bids := [0]
    offers := [1] }

/-- A submission with non-positive quantity. -/
def negQtyPayload : OrderPayload :=
  { order_id := "b2", agent_id := "c2", quantity_mw := -5, price_per_mwh := 50,
    timestamp := 0, priority := 5, valid_until := 1800 }

/-- A halted market whose supply/demand ratio is back above the 0.8
threshold. -/
def haltedState : EngineState :=
  { initialState with is_trading_active := false, supply_demand_ratio := 1 }

/-- An active market with supply/demand ratio 0.5, below the threshold. -/
def activeLowRatioState : EngineState :=
  { initialState with supply_demand_ratio := 1/2 }

/-- An active market with trailing volatility 0.6, above the 0.5 bound,
and a healthy supply/demand ratio. -/
def volatileState : EngineState :=
  { initialState with market_volatility := 3/5 }

/-- A bid whose expiry (-1) is already in the past at time 0. -/
def staleBid : MarketOrder :=
  { order_id := "b1", order_type := Side.bid, agent_id := "c1", quantity_mw := 10,
    price_per_mwh := 50, timestamp := -10, priority := 5, valid_until := -1,
    filled_quantity := 0, status := OrderStatus.active }

/-- A halted market holding the stale bid. -/
def haltedExpiredState : EngineState :=
  { initialState with
    is_trading_active := false
    heap := [staleBid]
    order_book := [("b1", 0)]
    bids := [0] }

/-- The trade of the uniform-pricing scenario, used as a concrete round
result. -/
def tradeW : Trade :=
  { bid_id := "b1", offer_id := "o1", buyer_id := "c1", seller_id := "p1",
    quantity_mw := 10, price_per_mwh := 45, total_value := 450, market_fee := 9/20 }

/-- A second bid at the same priority and price as bidPayload1 but created
one second later. -/
def bidPayload2 : OrderPayload :=
  { order_id := "b2", agent_id := "c2", quantity_mw := 10, price_per_mwh := 50,
    timestamp := 1, priority := 5, valid_until := 1800 }

/-- A book with the two equal-price bids, the older one first. -/
def twoBidsState : EngineState :=
  handle_energy_bid bidPayload2 (handle_energy_bid bidPayload1 initialState)

end EnergyMarket

namespace EnergyMarket

/-! Theorems. -/

theorem lex3_trans {α : Type} (f : α → ℤ) (g : α → ℚ) (h : α → ℤ) :
    ∀ a b c, lex3 f g h a b → lex3 f g h b c → lex3 f g h a c := by
  intro a b c hab hbc
  rcases hab with h1 | ⟨h1, h2⟩ <;> rcases hbc with h4 | ⟨h4, h5⟩
  · exact Or.inl (lt_trans h1 h4)
  · exact Or.inl (lt_of_lt_of_eq h1 h4)
  · exact Or.inl (lt_of_eq_of_lt h1 h4)
  · refine Or.inr ⟨h1.trans h4, ?_⟩
    rcases h2 with h2 | ⟨h2, h3⟩ <;> rcases h5 with h5 | ⟨h5, h6⟩
    · exact Or.inl (lt_trans h2 h5)
    · exact Or.inl (lt_of_lt_of_eq h2 h5)
    · exact Or.inl (lt_of_eq_of_lt h2 h5)
    · exact Or.inr ⟨h2.trans h5, le_trans h3 h6⟩

theorem lex3_total {α : Type} (f : α → ℤ) (g : α → ℚ) (h : α → ℤ) :
    ∀ a b, lex3 f g h a b ∨ lex3 f g h b a := by
  intro a b
  unfold lex3
  rcases lt_trichotomy (f a) (f b) with h1 | h1 | h1
  · left; left; exact h1
  · rcases lt_trichotomy (g a) (g b) with h2 | h2 | h2
    · left; right; exact ⟨h1, Or.inl h2⟩
    · rcases le_total (h a) (h b) with h3 | h3
      · left; right; exact ⟨h1, Or.inr ⟨h2, h3⟩⟩
      · right; right; exact ⟨h1.symm, Or.inr ⟨h2.symm, h3⟩⟩
    · right; right; exact ⟨h1.symm, Or.inl h2⟩
  · right; left; exact h1

theorem dictGet_dictInsert (k : String) (v : Nat) (d : List (String × Nat)) :
    dictGet k (dictInsert k v d) = some v := by
  induction d with
  | nil => simp [dictInsert, dictGet]
  | cons kv rest ih =>
    by_cases h : kv.1 = k
    · simp [dictInsert, h, dictGet]
    · simp [dictInsert, h, dictGet, ih]

theorem handle_energy_bid_book (p : OrderPayload) (st : EngineState) :
    dictGet p.order_id (handle_energy_bid p st).order_book = some st.heap.length := by
  simp [handle_energy_bid, dictGet_dictInsert]

theorem handle_energy_offer_book (p : OrderPayload) (st : EngineState) :
    dictGet p.order_id (handle_energy_offer p st).order_book = some st.heap.length := by
  simp [handle_energy_offer, dictGet_dictInsert]

theorem handle_energy_bid_mem (p : OrderPayload) (st : EngineState) :
    st.heap.length ∈ (handle_energy_bid p st).bids := by
  simp only [handle_energy_bid]
  exact (List.perm_insertionSort _ _).mem_iff.2 (by simp)

theorem handle_energy_offer_mem (p : OrderPayload) (st : EngineState) :
    st.heap.length ∈ (handle_energy_offer p st).offers := by
  simp only [handle_energy_offer]
  exact (List.perm_insertionSort _ _).mem_iff.2 (by simp)

theorem handle_energy_bid_heap (p : OrderPayload) (st : EngineState) :
    (handle_energy_bid p st).heap.get? st.heap.length = some (payloadOrder p Side.bid) := by
  simp [handle_energy_bid, List.get?_eq_getElem?, List.getElem?_concat_length]

theorem handle_energy_offer_heap (p : OrderPayload) (st : EngineState) :
    (handle_energy_offer p st).heap.get? st.heap.length = some (payloadOrder p Side.offer) := by
  simp [handle_energy_offer, List.get?_eq_getElem?, List.getElem?_concat_length]

/-- Claim C2: in uniform-pricing mode with fee rate 0.001, one bid
(quantity 10, price 50) against one offer (quantity 10, price 40), both
live, produce in one clearing round exactly one Trade with quantity 10,
price (50+40)/2 = 45, fee 10*45*0.001 = 0.45, and both orders end with
status filled. -/
theorem uniform_pricing_scenario :
    (clear_market defaultConfig 0 scenarioState).2 =
      [{ bid_id := "b1", offer_id := "o1", buyer_id := "c1", seller_id := "p1",
         quantity_mw := 10, price_per_mwh := 45, total_value := 450,
         market_fee := 9/20 }] ∧
    ((clear_market defaultConfig 0 scenarioState).1.heap.map (fun o => o.status)) =
      [OrderStatus.filled, OrderStatus.filled] := by
  decide

/-- Claim C1 (code bug): a partially filled order whose expiry has not
passed fails MarketOrder.is_valid (the check demands status == active), so
a clearing round skips it even against a compatible live offer, and
_cleanup_expired_orders removes it from the book and reports it expired. -/
theorem partially_filled_orders_are_dropped :
    (0 ≤ partialBid.valid_until ∧ partialBid.status = OrderStatus.partFilled ∧
      0 < partialBid.filled_quantity ∧ partialBid.filled_quantity < partialBid.quantity_mw) ∧
    partialBid.is_valid 0 = false ∧
    (clear_market defaultConfig 0 statePartial).2 = [] ∧
    (cleanup_expired_orders 0 statePartial).1.bids = [] ∧
    dictGet "b1" (cleanup_expired_orders 0 statePartial).1.order_book = none ∧
    (cleanup_expired_orders 0 statePartial).2 = [OBEvent.bid_expired "b1" "c1"] := by
  decide

/-- Claim C4 counterexample: a submission with quantity -5 <= 0 is not
rejected; the order lands in the order book and the bid side. -/
theorem submission_no_validation_counterexample :
    negQtyPayload.quantity_mw ≤ 0 ∧
    dictGet "b2" (handle_energy_bid negQtyPayload initialState).order_book = some 0 ∧
    (handle_energy_bid negQtyPayload initialState).bids = [0] ∧
    (getOrderD (handle_energy_bid negQtyPayload initialState) 0).quantity_mw = -5 := by
  decide

/-- Claim C5 counterexample: a halted market whose ratio is back at 1.0
(at or above the 0.8 threshold) stays halted after a monitoring tick; the
claimed halted-to-active recovery transition does not exist. -/
theorem halt_no_recovery_counterexample :
    haltedState.is_trading_active = false ∧
    defaultConfig.emergency_stop_threshold ≤ haltedState.supply_demand_ratio ∧
    (check_emergency_conditions defaultConfig haltedState).1.is_trading_active = false := by
  decide

/-- Claim C6 counterexample: with volatility 0.6 > 0.5 and a healthy
ratio, a monitoring tick leaves the trading-active flag true; the
volatility check broadcasts a signal but never engages the halt. -/
theorem volatility_does_not_halt_counterexample :
    (1:ℚ)/2 < volatileState.market_volatility ∧
    volatileState.is_trading_active = true ∧
    (check_emergency_conditions defaultConfig volatileState).1.is_trading_active = true := by
  decide

/-- Claim C4, amended: submission performs no validation at all; every
order, including one with quantity <= 0, price <= 0 or expiry <= creation
time, is inserted into the order book dict and its side collection with
filled quantity 0 and status active, and no InvalidOrder report exists. -/
theorem submission_accepts_all_orders (p : OrderPayload) (st : EngineState) :
    dictGet p.order_id (handle_energy_bid p st).order_book = some st.heap.length ∧
    st.heap.length ∈ (handle_energy_bid p st).bids ∧
    (handle_energy_bid p st).heap.get? st.heap.length = some (payloadOrder p Side.bid) ∧
    dictGet p.order_id (handle_energy_offer p st).order_book = some st.heap.length ∧
    st.heap.length ∈ (handle_energy_offer p st).offers ∧
    (handle_energy_offer p st).heap.get? st.heap.length = some (payloadOrder p Side.offer) :=
  ⟨handle_energy_bid_book p st, handle_energy_bid_mem p st, handle_energy_bid_heap p st,
   handle_energy_offer_book p st, handle_energy_offer_mem p st, handle_energy_offer_heap p st⟩

/-- Claim C5, amended: the halt is engaged on a monitoring tick when the
supply/demand ratio is below the emergency threshold while the market is
active (broadcasting supply_demand_imbalance), and once the market is
halted no monitoring tick ever sets it active again: the halted-to-active
recovery transition does not exist in the code. -/
theorem halt_is_permanent (cfg : MarketConfig) (st : EngineState) :
    (st.is_trading_active = true →
      st.supply_demand_ratio < cfg.emergency_stop_threshold →
      (check_emergency_conditions cfg st).1.is_trading_active = false ∧
      EmergencySignal.supply_demand_imbalance ∈ (check_emergency_conditions cfg st).2) ∧
    (st.is_trading_active = false →
      (check_emergency_conditions cfg st).1.is_trading_active = false) := by
  unfold check_emergency_conditions
  constructor
  · intro ha hr
    simp only [hr, ha, if_true]
    split_ifs <;> simp_all
  · intro ha
    split_ifs <;> simp_all

/-- Witness for halt_is_permanent at a concrete active market with ratio
0.5 below the default threshold 0.8. -/
theorem halt_is_permanent_witness :
    (check_emergency_conditions defaultConfig activeLowRatioState).1.is_trading_active = false :=
  ((halt_is_permanent defaultConfig activeLowRatioState).1 (by decide) (by decide)).1

/-- Claim C6, amended: on a monitoring tick with volatility above 0.5 a
high_volatility emergency signal is broadcast, but the volatility check
does not modify the trading-active flag: the flag after the tick is
determined solely by the supply/demand check. -/
theorem volatility_signal_only (cfg : MarketConfig) (st : EngineState)
    (hvol : (1:ℚ)/2 < st.market_volatility) :
    EmergencySignal.high_volatility ∈ (check_emergency_conditions cfg st).2 ∧
    (check_emergency_conditions cfg st).1.is_trading_active =
      (st.is_trading_active &&
        !(decide (st.supply_demand_ratio < cfg.emergency_stop_threshold))) := by
  unfold check_emergency_conditions
  simp only [hvol, if_true]
  cases h : st.is_trading_active <;> split_ifs <;> simp_all

/-- Witness for volatility_signal_only at a concrete active market with
volatility 0.6. -/
theorem volatility_signal_only_witness :
    EmergencySignal.high_volatility ∈
      (check_emergency_conditions defaultConfig volatileState).2 ∧
    (check_emergency_conditions defaultConfig volatileState).1.is_trading_active =
      (volatileState.is_trading_active &&
        !(decide (volatileState.supply_demand_ratio < defaultConfig.emergency_stop_threshold))) :=
  volatility_signal_only defaultConfig volatileState (by decide)

theorem matchOffers_metrics (cfg : MarketConfig) (now : ℤ) (bref : Nat)
    (orefs : List Nat) (st : EngineState) :
    (matchOffers cfg now bref orefs st).1.market_clearing_price = st.market_clearing_price ∧
    (matchOffers cfg now bref orefs st).1.market_volatility = st.market_volatility := by
  induction orefs generalizing st with
  | nil => simp [matchOffers]
  | cons o rest ih =>
    simp only [matchOffers]
    cases hb : st.heap.get? bref with
    | none => exact ih st
    | some bid =>
      cases ho : st.heap.get? o with
      | none => exact ih st
      | some offer =>
        dsimp only
        split_ifs <;> first
          | exact ih st
          | exact ⟨rfl, rfl⟩
          | exact ⟨(ih _).1, (ih _).2⟩

theorem matchBids_metrics (cfg : MarketConfig) (now : ℤ) (sortedOffers : List Nat)
    (brefs : List Nat) (st : EngineState) :
    (matchBids cfg now sortedOffers brefs st).1.market_clearing_price = st.market_clearing_price ∧
    (matchBids cfg now sortedOffers brefs st).1.market_volatility = st.market_volatility := by
  induction brefs generalizing st with
  | nil => simp [matchBids]
  | cons b rest ih =>
    simp only [matchBids]
    cases hb : st.heap.get? b with
    | none => exact ih st
    | some bid =>
      dsimp only
      split_ifs
      · refine ⟨?_, ?_⟩
        · exact ((ih _).1).trans (matchOffers_metrics cfg now b sortedOffers st).1
        · exact ((ih _).2).trans (matchOffers_metrics cfg now b sortedOffers st).2
      · exact ih st

/-- Claim C7: after a round with at least one trade the clearing price is
set to the volume-weighted average over the round's trades, volatility is
updated to 0.9*volatility + 0.1*(|new - old| / old) when the old price is
positive and left unchanged when the old price is 0; a round with zero
trades leaves both the clearing price and the volatility unchanged. -/
theorem clearing_price_update :
    (∀ (st : EngineState) (trades : List Trade), trades ≠ [] → 0 < totalVolume trades →
      (update_market_clearing_price st trades).market_clearing_price =
        weightedPrice trades / totalVolume trades ∧
      (0 < st.market_clearing_price →
        (update_market_clearing_price st trades).market_volatility =
          st.market_volatility * (9/10) +
          (|weightedPrice trades / totalVolume trades - st.market_clearing_price| /
            st.market_clearing_price) * (1/10)) ∧
      (st.market_clearing_price = 0 →
        (update_market_clearing_price st trades).market_volatility =
          st.market_volatility)) ∧
    (∀ (cfg : MarketConfig) (now : ℤ) (st : EngineState),
      (clear_market cfg now st).2 = [] →
      (clear_market cfg now st).1.market_clearing_price = st.market_clearing_price ∧
      (clear_market cfg now st).1.market_volatility = st.market_volatility) := by
  constructor
  · intro st trades hne hvol
    unfold update_market_clearing_price
    rw [if_neg hne]
    dsimp only
    refine ⟨?_, ?_, ?_⟩
    · rfl
    · intro hp
      rw [if_pos hp]
    · intro hp
      have hnp : ¬ 0 < st.market_clearing_price := by rw [hp]; exact lt_irrefl 0
      rw [if_neg hnp]
  · intro cfg now st h
    unfold clear_market at h ⊢
    split_ifs at h ⊢ with h1
    · exact ⟨rfl, rfl⟩
    · by_cases h2 :
        (matchBids cfg now (sorted_offers st) (sorted_bids st) st).2 = []
      · simp only [h2, if_pos rfl] at h ⊢
        simp only [if_true]
        exact matchBids_metrics cfg now (sorted_offers st) (sorted_bids st) st
      · simp only [if_neg h2] at h
        exact absurd h h2

/-- Claim C3: in every clearing round bids are considered sorted by
priority descending, then limit price descending, then creation time
ascending, and offers by priority descending, then limit price ascending,
then creation time ascending; consequently, in the bid snapshot the outer
matching loop walks in order, a bid with equal priority, equal-or-better
price and an earlier timestamp sits strictly before the other bid, so it
receives fill first. -/
theorem ordering_discipline :
    (∀ st : EngineState, List.Sorted (bidOrdering st) (sorted_bids st)) ∧
    (∀ st : EngineState, List.Sorted (offerOrdering st) (sorted_offers st)) ∧
    (∀ (st : EngineState) (i j : ℕ)
      (hi : i < (sorted_bids st).length) (hj : j < (sorted_bids st).length),
      (getOrderD st ((sorted_bids st).get ⟨i, hi⟩)).priority =
        (getOrderD st ((sorted_bids st).get ⟨j, hj⟩)).priority →
      (getOrderD st ((sorted_bids st).get ⟨j, hj⟩)).price_per_mwh ≤
        (getOrderD st ((sorted_bids st).get ⟨i, hi⟩)).price_per_mwh →
      (getOrderD st ((sorted_bids st).get ⟨i, hi⟩)).timestamp <
        (getOrderD st ((sorted_bids st).get ⟨j, hj⟩)).timestamp →
      i < j) := by
  have hsb : ∀ st : EngineState, List.Sorted (bidOrdering st) (sorted_bids st) := by
    intro st
    haveI : IsTotal Nat (bidOrdering st) := ⟨lex3_total _ _ _⟩
    haveI : IsTrans Nat (bidOrdering st) := ⟨lex3_trans _ _ _⟩
    exact List.sorted_insertionSort _ _
  refine ⟨hsb, ?_, ?_⟩
  · intro st
    haveI : IsTotal Nat (offerOrdering st) := ⟨lex3_total _ _ _⟩
    haveI : IsTrans Nat (offerOrdering st) := ⟨lex3_trans _ _ _⟩
    exact List.sorted_insertionSort _ _
  · intro st i j hi hj hpri hprice hts
    by_contra hij
    push_neg at hij
    rcases lt_or_eq_of_le hij with hlt | heq
    · have hrel := (List.pairwise_iff_get.1 (hsb st)) ⟨j, hj⟩ ⟨i, hi⟩ hlt
      unfold bidOrdering lex3 at hrel
      dsimp only at hrel
      rcases hrel with h1 | ⟨h1, h2 | ⟨h2, h3⟩⟩
      · rw [hpri] at h1
        omega
      · rw [neg_lt_neg_iff] at h2
        exact absurd (lt_of_lt_of_le h2 hprice) (lt_irrefl _)
      · omega
    · subst heq
      exact absurd hts (lt_irrefl _)

/-- Witness for ordering_discipline: with two bids at equal priority and
price, timestamps 0 and 1, the older one occupies the earlier slot of the
sorted snapshot. -/
theorem ordering_discipline_witness :
    List.Sorted (bidOrdering twoBidsState) (sorted_bids twoBidsState) ∧ (0:ℕ) < 1 :=
  ⟨ordering_discipline.1 twoBidsState,
   ordering_discipline.2.2 twoBidsState 0 1 (by decide) (by decide) (by decide)
     (by decide) (by decide)⟩

theorem dictGet_eq_none_of_not_mem (k : String) (d : List (String × Nat))
    (h : k ∉ d.map Prod.fst) : dictGet k d = none := by
  induction d with
  | nil => rfl
  | cons kv rest ih =>
    simp only [List.map_cons, List.mem_cons, not_or] at h
    have h1 : ¬ kv.1 = k := fun he => h.1 he.symm
    rw [dictGet, if_neg h1]
    exact ih h.2

theorem dictGet_none_dictErase (k k' : String) (d : List (String × Nat))
    (h : dictGet k d = none) : dictGet k (dictErase k' d) = none := by
  induction d with
  | nil => exact h
  | cons kv rest ih =>
    by_cases h1 : kv.1 = k
    · rw [dictGet, if_pos h1] at h
      exact absurd h (by simp)
    · rw [dictGet, if_neg h1] at h
      by_cases h2 : kv.1 = k'
      · rw [dictErase, if_pos h2]
        exact h
      · rw [dictErase, if_neg h2, dictGet, if_neg h1]
        exact ih h

theorem dictGet_dictErase_self (k : String) (d : List (String × Nat))
    (hnd : (d.map Prod.fst).Nodup) : dictGet k (dictErase k d) = none := by
  induction d with
  | nil => rfl
  | cons kv rest ih =>
    simp only [List.map_cons, List.nodup_cons] at hnd
    by_cases h1 : kv.1 = k
    · rw [dictErase, if_pos h1]
      exact dictGet_eq_none_of_not_mem k rest (h1 ▸ hnd.1)
    · rw [dictErase, if_neg h1, dictGet, if_neg h1]
      exact ih hnd.2

theorem mem_dictErase_keys (k x : String) (d : List (String × Nat)) :
    x ∈ (dictErase k d).map Prod.fst → x ∈ d.map Prod.fst := by
  induction d with
  | nil => simp [dictErase]
  | cons kv rest ih =>
    by_cases h1 : kv.1 = k
    · rw [dictErase, if_pos h1]
      intro h
      simp only [List.map_cons, List.mem_cons]
      exact Or.inr h
    · rw [dictErase, if_neg h1]
      simp only [List.map_cons, List.mem_cons]
      rintro (h | h)
      · exact Or.inl h
      · exact Or.inr (ih h)

theorem dictErase_nodup (k : String) (d : List (String × Nat))
    (hnd : (d.map Prod.fst).Nodup) : ((dictErase k d).map Prod.fst).Nodup := by
  induction d with
  | nil => simp [dictErase]
  | cons kv rest ih =>
    simp only [List.map_cons, List.nodup_cons] at hnd
    by_cases h1 : kv.1 = k
    · rw [dictErase, if_pos h1]
      exact hnd.2
    · rw [dictErase, if_neg h1]
      simp only [List.map_cons, List.nodup_cons]
      exact ⟨fun hm => hnd.1 (mem_dictErase_keys k kv.1 rest hm), ih hnd.2⟩

theorem cleanup_foldl_book (L : List (String × Nat)) (acc : EngineState) :
    (L.foldl (fun acc kv =>
      { acc with
        order_book := dictErase kv.1 acc.order_book
        bids := acc.bids.erase kv.2
        offers := acc.offers.erase kv.2 }) acc).order_book =
    L.foldl (fun b kv => dictErase kv.1 b) acc.order_book := by
  induction L generalizing acc with
  | nil => rfl
  | cons kv rest ih =>
    simp only [List.foldl_cons]
    exact ih _

theorem dictGet_foldl_erase_none (L : List (String × Nat)) (b : List (String × Nat))
    (k : String) (h : dictGet k b = none) :
    dictGet k (L.foldl (fun b kv => dictErase kv.1 b) b) = none := by
  induction L generalizing b with
  | nil => exact h
  | cons kv rest ih =>
    simp only [List.foldl_cons]
    exact ih _ (dictGet_none_dictErase k kv.1 b h)

theorem dictGet_foldl_erase_of_mem (L : List (String × Nat)) (b : List (String × Nat))
    (k : String) (hk : k ∈ L.map Prod.fst) (hnd : (b.map Prod.fst).Nodup) :
    dictGet k (L.foldl (fun b kv => dictErase kv.1 b) b) = none := by
  induction L generalizing b with
  | nil => simp at hk
  | cons kv rest ih =>
    simp only [List.map_cons, List.mem_cons] at hk
    simp only [List.foldl_cons]
    by_cases he : k = kv.1
    · apply dictGet_foldl_erase_none
      rw [he]
      exact dictGet_dictErase_self kv.1 b hnd
    · rcases hk with hk | hk
      · exact absurd hk he
      · exact ih _ hk (dictErase_nodup kv.1 b hnd)

theorem cleanup_removes_invalid (now : ℤ) (st : EngineState) (k : String) (r : Nat)
    (hnd : (st.order_book.map Prod.fst).Nodup) (hmem : (k, r) ∈ st.order_book)
    (hinv : (getOrderD st r).is_valid now = false) :
    dictGet k (cleanup_expired_orders now st).1.order_book = none := by
  unfold cleanup_expired_orders
  dsimp only
  rw [cleanup_foldl_book]
  apply dictGet_foldl_erase_of_mem _ _ _ _ hnd
  refine List.mem_map.2 ⟨(k, r), ?_, rfl⟩
  refine List.mem_filter.2 ⟨hmem, ?_⟩
  simp [hinv]

/-- Claim C8: while the market is halted (is_trading_active false), a
scheduler tick never produces a trade and leaves the state untouched, but
submission still places orders on the book and the janitor sweep still
removes orders that fail the validity check. -/
theorem halt_blocks_matching_only :
    (∀ (cfg : MarketConfig) (now : ℤ) (st : EngineState),
      st.is_trading_active = false → clearing_tick cfg now st = (st, [])) ∧
    (∀ (p : OrderPayload) (st : EngineState), st.is_trading_active = false →
      dictGet p.order_id (handle_energy_bid p st).order_book = some st.heap.length ∧
      st.heap.length ∈ (handle_energy_bid p st).bids) ∧
    (∀ (now : ℤ) (st : EngineState) (k : String) (r : Nat),
      st.is_trading_active = false →
      (st.order_book.map Prod.fst).Nodup → (k, r) ∈ st.order_book →
      (getOrderD st r).is_valid now = false →
      dictGet k (cleanup_expired_orders now st).1.order_book = none) := by
  refine ⟨?_, ?_, ?_⟩
  · intro cfg now st h
    simp [clearing_tick, h]
  · intro p st _
    exact ⟨handle_energy_bid_book p st, handle_energy_bid_mem p st⟩
  · intro now st k r _ hnd hmem hinv
    exact cleanup_removes_invalid now st k r hnd hmem hinv

/-- Witness for halt_blocks_matching_only at a concrete halted market
holding one expired bid: the tick is a no-op, a new submission lands on
the book, and the sweep drops the expired bid. -/
theorem halt_blocks_matching_only_witness :
    clearing_tick defaultConfig 0 haltedExpiredState = (haltedExpiredState, []) ∧
    dictGet "b1" (handle_energy_bid bidPayload1 haltedExpiredState).order_book = some 1 ∧
    dictGet "b1" (cleanup_expired_orders 0 haltedExpiredState).1.order_book = none :=
  ⟨halt_blocks_matching_only.1 defaultConfig 0 haltedExpiredState (by decide),
   (halt_blocks_matching_only.2.1 bidPayload1 haltedExpiredState (by decide)).1,
   halt_blocks_matching_only.2.2 0 haltedExpiredState "b1" 0 (by decide) (by decide)
     (by decide) (by decide)⟩

/-- Claim C10: submitting an order whose id already maps to a stored order
replaces the id-index entry with the new object, while the old object
stays in its side collection (unchanged in the store, hence still
matchable) alongside the new one; submission never rejects or
deduplicates by order id. -/
theorem duplicate_id_shadowing (p : OrderPayload) (st : EngineState) (rOld : Nat)
    (_hold : dictGet p.order_id st.order_book = some rOld)
    (hmem : rOld ∈ st.offers) (hlt : rOld < st.heap.length) :
    dictGet p.order_id (handle_energy_offer p st).order_book = some st.heap.length ∧
    rOld ∈ (handle_energy_offer p st).offers ∧
    st.heap.length ∈ (handle_energy_offer p st).offers ∧
    (handle_energy_offer p st).heap.get? rOld = st.heap.get? rOld ∧
    (handle_energy_offer p st).heap.get? st.heap.length =
      some (payloadOrder p Side.offer) := by
  refine ⟨handle_energy_offer_book p st, ?_, handle_energy_offer_mem p st, ?_,
    handle_energy_offer_heap p st⟩
  · simp only [handle_energy_offer]
    exact (List.perm_insertionSort _ _).mem_iff.2 (List.mem_append_left _ hmem)
  · simp only [handle_energy_offer, List.get?_eq_getElem?]
    exact List.getElem?_append_left hlt

/-- Witness for duplicate_id_shadowing: submitting offer o1 a second time
into the scenario book keeps the old object (reference 1) on the offer
side while the dict entry now points at the new object (reference 2). -/
theorem duplicate_id_shadowing_witness :
    dictGet "o1" (handle_energy_offer offerPayload1 scenarioState).order_book = some 2 ∧
    1 ∈ (handle_energy_offer offerPayload1 scenarioState).offers ∧
    2 ∈ (handle_energy_offer offerPayload1 scenarioState).offers :=
  ⟨(duplicate_id_shadowing offerPayload1 scenarioState 1 (by decide) (by decide) (by decide)).1,
   (duplicate_id_shadowing offerPayload1 scenarioState 1 (by decide) (by decide) (by decide)).2.1,
   (duplicate_id_shadowing offerPayload1 scenarioState 1 (by decide) (by decide) (by decide)).2.2.1⟩

theorem heap2_facts (st : EngineState) (bref o : Nat) (bid offer : MarketOrder) (q : ℚ)
    (hb : st.heap.get? bref = some bid) (ho : st.heap.get? o = some offer)
    (hwf : heapWF st.heap) (hq0 : 0 ≤ q)
    (hqb : q ≤ bid.quantity_mw - bid.filled_quantity)
    (hqo : q ≤ offer.quantity_mw - offer.filled_quantity) :
    heapWF ((st.heap.set bref (bid.fill q)).set o (offer.fill q)) ∧
    ((st.heap.set bref (bid.fill q)).set o (offer.fill q)).length = st.heap.length ∧
    (∀ r, filledAt st.heap r ≤
      filledAt ((st.heap.set bref (bid.fill q)).set o (offer.fill q)) r) := by
  have hbmem : bid ∈ st.heap := List.get?_mem hb
  have homem : offer ∈ st.heap := List.get?_mem ho
  obtain ⟨hblt, -⟩ := List.get?_eq_some.1 hb
  obtain ⟨holt, -⟩ := List.get?_eq_some.1 ho
  have hbb := hwf bid hbmem
  have hoo := hwf offer homem
  refine ⟨?_, ?_, ?_⟩
  · intro x hx
    rcases List.mem_or_eq_of_mem_set hx with hx | rfl
    · rcases List.mem_or_eq_of_mem_set hx with hx | rfl
      · exact hwf x hx
      · unfold MarketOrder.fill
        dsimp only
        exact ⟨by linarith [hbb.1], by linarith [hbb.2]⟩
    · unfold MarketOrder.fill
      dsimp only
      exact ⟨by linarith [hoo.1], by linarith [hoo.2]⟩
  · simp [List.length_set]
  · intro r
    unfold filledAt
    by_cases hro : r = o
    · subst hro
      rw [ho, List.get?_set_eq_of_lt _ (by simpa [List.length_set] using holt)]
      simp only [MarketOrder.fill, Option.map_some', Option.getD_some]
      linarith
    · rw [List.get?_set_ne _ _ (fun he => hro he.symm)]
      by_cases hrb : r = bref
      · subst hrb
        rw [hb, List.get?_set_eq_of_lt _ hblt]
        simp only [MarketOrder.fill, Option.map_some', Option.getD_some]
        linarith
      · rw [List.get?_set_ne _ _ (fun he => hrb he.symm)]

theorem matchOffers_heapWF (cfg : MarketConfig) (now : ℤ) (bref : Nat)
    (orefs : List Nat) (st : EngineState)
    (hmin : 0 ≤ cfg.min_trade_size_mw) (hwf : heapWF st.heap) :
    heapWF (matchOffers cfg now bref orefs st).1.heap ∧
    (matchOffers cfg now bref orefs st).1.heap.length = st.heap.length ∧
    (∀ r, filledAt st.heap r ≤ filledAt (matchOffers cfg now bref orefs st).1.heap r) := by
  induction orefs generalizing st with
  | nil => exact ⟨hwf, rfl, fun r => le_refl _⟩
  | cons o rest ih =>
    simp only [matchOffers]
    cases hb : st.heap.get? bref with
    | none => exact ih st hwf
    | some bid =>
      cases ho : st.heap.get? o with
      | none => exact ih st hwf
      | some offer =>
        dsimp only
        by_cases hv : offer.is_valid now = true
        case neg => rw [if_neg hv]; exact ih st hwf
        rw [if_pos hv]
        by_cases hp : offer.price_per_mwh ≤ bid.price_per_mwh
        case neg => rw [if_neg hp]; exact ih st hwf
        rw [if_pos hp]
        by_cases hq : cfg.min_trade_size_mw ≤
          min (bid.quantity_mw - bid.filled_quantity)
              (offer.quantity_mw - offer.filled_quantity)
        case neg => rw [if_neg hq]; exact ih st hwf
        rw [if_pos hq]
        have hq0 : 0 ≤ min (bid.quantity_mw - bid.filled_quantity)
            (offer.quantity_mw - offer.filled_quantity) := le_trans hmin hq
        have facts := heap2_facts st bref o bid offer _ hb ho hwf hq0
          (min_le_left _ _) (min_le_right _ _)
        by_cases hbs : (bid.fill (min (bid.quantity_mw - bid.filled_quantity)
            (offer.quantity_mw - offer.filled_quantity))).status = OrderStatus.filled
        · rw [if_pos hbs]
          exact facts
        · rw [if_neg hbs]
          have f2 := ih (applyFill st bref o bid offer _) facts.1
          exact ⟨f2.1, f2.2.1.trans facts.2.1,
            fun r => le_trans (facts.2.2 r) (f2.2.2 r)⟩

theorem matchBids_heapWF (cfg : MarketConfig) (now : ℤ) (sortedOffers : List Nat)
    (brefs : List Nat) (st : EngineState)
    (hmin : 0 ≤ cfg.min_trade_size_mw) (hwf : heapWF st.heap) :
    heapWF (matchBids cfg now sortedOffers brefs st).1.heap ∧
    (matchBids cfg now sortedOffers brefs st).1.heap.length = st.heap.length ∧
    (∀ r, filledAt st.heap r ≤
      filledAt (matchBids cfg now sortedOffers brefs st).1.heap r) := by
  induction brefs generalizing st with
  | nil => exact ⟨hwf, rfl, fun r => le_refl _⟩
  | cons b rest ih =>
    simp only [matchBids]
    cases hb : st.heap.get? b with
    | none => exact ih st hwf
    | some bid =>
      dsimp only
      by_cases hv : bid.is_valid now = true
      · rw [if_pos hv]
        have f1 := matchOffers_heapWF cfg now b sortedOffers st hmin hwf
        have f2 := ih _ f1.1
        exact ⟨f2.1, f2.2.1.trans f1.2.1, fun r => le_trans (f1.2.2 r) (f2.2.2 r)⟩
      · rw [if_neg hv]
        exact ih st hwf

theorem update_price_heap (s : EngineState) (ts : List Trade) :
    (update_market_clearing_price s ts).heap = s.heap := by
  unfold update_market_clearing_price
  split_ifs <;> rfl

/-- Claim C9: filled_quantity starts at 0 on submission, and a clearing
round (whose every fill uses min of the two remaining quantities) keeps
0 <= filled_quantity <= quantity_mw for every stored order and never
decreases any filled quantity. -/
theorem no_overfill :
    (∀ (p : OrderPayload) (st : EngineState),
      (((handle_energy_bid p st).heap.get? st.heap.length).map
        (fun o => o.filled_quantity)) = some 0 ∧
      (((handle_energy_offer p st).heap.get? st.heap.length).map
        (fun o => o.filled_quantity)) = some 0) ∧
    (∀ (cfg : MarketConfig) (now : ℤ) (st : EngineState),
      0 ≤ cfg.min_trade_size_mw → heapWF st.heap →
      heapWF (clear_market cfg now st).1.heap ∧
      (∀ r, filledAt st.heap r ≤ filledAt (clear_market cfg now st).1.heap r)) := by
  constructor
  · intro p st
    rw [handle_energy_bid_heap, handle_energy_offer_heap]
    exact ⟨rfl, rfl⟩
  · intro cfg now st hmin hwf
    unfold clear_market
    dsimp only
    split_ifs with h1 h2
    · exact ⟨hwf, fun r => le_refl _⟩
    · have f := matchBids_heapWF cfg now (sorted_offers st) (sorted_bids st) st hmin hwf
      exact ⟨f.1, f.2.2⟩
    · have f := matchBids_heapWF cfg now (sorted_offers st) (sorted_bids st) st hmin hwf
      rw [update_price_heap]
      exact ⟨f.1, f.2.2⟩

/-- Witness for no_overfill: the scenario book satisfies the invariant
before and after the round, and the bid's filled quantity only grows. -/
theorem no_overfill_witness :
    heapWF (clear_market defaultConfig 0 scenarioState).1.heap ∧
    filledAt scenarioState.heap 0 ≤
      filledAt (clear_market defaultConfig 0 scenarioState).1.heap 0 :=
  ⟨(no_overfill.2 defaultConfig 0 scenarioState (by decide) (by decide)).1,
   (no_overfill.2 defaultConfig 0 scenarioState (by decide) (by decide)).2 0⟩

/-- Witness for clearing_price_update: a one-trade round from the initial
price 50 yields the weighted-average price, and the volatility formula
applies since 50 > 0; a round on a book with no compatible pair leaves
price and volatility unchanged. -/
theorem clearing_price_update_witness :
    (update_market_clearing_price initialState [tradeW]).market_clearing_price =
      weightedPrice [tradeW] / totalVolume [tradeW] ∧
    (update_market_clearing_price initialState [tradeW]).market_volatility =
      initialState.market_volatility * (9/10) +
      (|weightedPrice [tradeW] / totalVolume [tradeW] - initialState.market_clearing_price| /
        initialState.market_clearing_price) * (1/10) ∧
    (clear_market defaultConfig 0 statePartial).1.market_clearing_price =
      statePartial.market_clearing_price :=
  ⟨(clearing_price_update.1 initialState [tradeW] (by decide) (by decide)).1,
   (clearing_price_update.1 initialState [tradeW] (by decide) (by decide)).2.1 (by decide),
   (clearing_price_update.2 defaultConfig 0 statePartial (by decide)).1⟩

end EnergyMarket
